import Mathlib

/-!
Verification of the double-mapped circular-buffer primitive.

The typed accessor layer (`DoubleMappedBuffer` with `new`, `slice`,
`slice_mut`, `slice_with_offset`, `slice_mut_with_offset`, `len`) is embedded
from `src/double-mapped-buffer/src/double_mapped_buffer.rs`.  The platform
layer (`DoubleMappedBufferImpl` and the OS double mapping) is not part of the
sources, only its contract is specified; it is modelled from the spec below.

Addresses, sizes and byte values are `Nat`; `usize` overflow is modelled by an
explicit bound `USIZE_MAX`.  Slice accessors return a `Window` (start address
and element count), which is exactly the data `slice::from_raw_parts` receives
in the source.  The double mapping itself is modelled at byte granularity:
region-relative virtual byte `a` resolves to physical byte `a % byteLength`,
which is the spec's mirroring invariant.
-/

namespace Vmcircbuffer

/-- Largest value representable in the address width (64-bit model of
Rust's usize). -/
def USIZE_MAX : Nat := 2 ^ 64 - 1

/-- Error taxonomy of the buffer, from the spec's section 7. -/
inductive DoubleMappedBufferError where
  | sizeOverflow
  | unsupported
  | outOfMemory
  | mappingFailed
deriving DecidableEq

/-- Result of a platform allocation: the base address of the first virtual
mapping and the byte length of one half. -/
structure AllocResult where
  base : Nat
  byteLength : Nat
deriving DecidableEq

/-- Round a byte count up to the next multiple of the page size:
ceil(minBytes / ps) * ps. -/
def roundUpToPage (ps minBytes : Nat) : Nat := (minBytes + ps - 1) / ps * ps

/-- Modelled from the spec: the contract of the external Platform Double-Map
capability `allocate(min_bytes)` (spec 4.1), whose implementation is not in
the sources.  Any successful allocation realizes
`byte_length = ceil(min_bytes / page_size) * page_size` and a page-aligned
base; failures (OutOfMemory, MappingFailed) are left unconstrained. -/
def AllocContract (ps : Nat)
    (alloc : Nat → Except DoubleMappedBufferError AllocResult) : Prop :=
  ∀ minBytes r, alloc minBytes = .ok r →
    r.byteLength = roundUpToPage ps minBytes ∧ r.base % ps = 0

/-- Modelled from the spec: a deterministic instance of the Platform
Double-Map capability (spec 4.1) used as the model platform.  A zero-length
request cannot be mapped (the realized byte length must be a positive
multiple of the page size, spec 3), so it fails; every positive request is
granted, with a page-aligned base. -/
def modelAlloc (ps minBytes : Nat) : Except DoubleMappedBufferError AllocResult :=
  if minBytes = 0 then .error .mappingFailed
  else .ok ⟨ps, roundUpToPage ps minBytes⟩

/-- Modelled from the spec: the state of the platform buffer — base address,
byte length of one half, and the derived item count (spec 3, 4.2). -/
structure DoubleMappedBufferImpl where
  base : Nat
  byteLength : Nat
  lenItems : Nat
deriving DecidableEq

/-- Modelled from the spec: accessor for the base address of the region. -/
def DoubleMappedBufferImpl.addr (b : DoubleMappedBufferImpl) : Nat := b.base

/-- Modelled from the spec: accessor for the derived item count. -/
def DoubleMappedBufferImpl.len (b : DoubleMappedBufferImpl) : Nat := b.lenItems

/-- Modelled from the spec: construction of the platform buffer
(`DoubleMappedBufferImpl::new`, spec 4.2), over an arbitrary platform
allocator.  Computes `min_bytes = min_items * element_size`; fails with
`SizeOverflow` when that product is not representable; fails with
`Unsupported` when the alignment exceeds the page size; otherwise delegates
to the allocator, propagating its errors unchanged, and on success derives
`len_items = byte_length / element_size`. -/
def DoubleMappedBufferImpl.newWith
    (alloc : Nat → Except DoubleMappedBufferError AllocResult)
    (ps minItems elementSize elementAlign : Nat) :
    Except DoubleMappedBufferError DoubleMappedBufferImpl :=
  let minBytes := minItems * elementSize
  if USIZE_MAX < minBytes then .error .sizeOverflow
  else if ps < elementAlign then .error .unsupported
  else match alloc minBytes with
    | .error e => .error e
    | .ok r => .ok ⟨r.base, r.byteLength, r.byteLength / elementSize⟩

/-- Modelled from the spec: platform-buffer construction over the model
platform. -/
def DoubleMappedBufferImpl.new (ps minItems elementSize elementAlign : Nat) :
    Except DoubleMappedBufferError DoubleMappedBufferImpl :=
  DoubleMappedBufferImpl.newWith (modelAlloc ps) ps minItems elementSize elementAlign

/-- The typed buffer from the source: a platform buffer plus the element
type's layout (the `PhantomData<T>` type parameter is embedded as the
element size and alignment it determines). -/
structure DoubleMappedBuffer where
  buffer : DoubleMappedBufferImpl
  elementSize : Nat
  elementAlign : Nat
deriving DecidableEq

/-- `DoubleMappedBuffer::new` from the source, over an arbitrary platform
allocator: delegates to `DoubleMappedBufferImpl::new` with the element
type's size and alignment, wraps a success, and passes an error through
unchanged. -/
def DoubleMappedBuffer.newWith
    (alloc : Nat → Except DoubleMappedBufferError AllocResult)
    (ps minItems elementSize elementAlign : Nat) :
    Except DoubleMappedBufferError DoubleMappedBuffer :=
  match DoubleMappedBufferImpl.newWith alloc ps minItems elementSize elementAlign with
  | .ok buffer => .ok ⟨buffer, elementSize, elementAlign⟩
  | .error e => .error e

/-- `DoubleMappedBuffer::new` over the model platform. -/
def DoubleMappedBuffer.new (ps minItems elementSize elementAlign : Nat) :
    Except DoubleMappedBufferError DoubleMappedBuffer :=
  DoubleMappedBuffer.newWith (modelAlloc ps) ps minItems elementSize elementAlign

/-- A slice handed back by an accessor: its start address and element count,
exactly the two arguments the source passes to `slice::from_raw_parts`. -/
structure Window where
  startAddr : Nat
  numElems : Nat
deriving DecidableEq

/-- `DoubleMappedBuffer::len` from the source: returns `self.buffer.len()`. -/
def DoubleMappedBuffer.len (b : DoubleMappedBuffer) : Nat := b.buffer.len

/-- `slice` from the source: the window at `self.buffer.addr()` of
`self.buffer.len()` elements. -/
def DoubleMappedBuffer.slice (b : DoubleMappedBuffer) : Window :=
  ⟨b.buffer.addr, b.buffer.len⟩

/-- `slice_mut` from the source: same address and count as `slice`. -/
def DoubleMappedBuffer.sliceMut (b : DoubleMappedBuffer) : Window :=
  ⟨b.buffer.addr, b.buffer.len⟩

/-- `slice_with_offset` from the source: pointer `add(offset)` advances by
`offset * size_of::<T>()` bytes; the count is `self.buffer.len()`. -/
def DoubleMappedBuffer.sliceWithOffset (b : DoubleMappedBuffer) (offset : Nat) : Window :=
  ⟨b.buffer.addr + offset * b.elementSize, b.buffer.len⟩

/-- `slice_mut_with_offset` from the source: same address and count as
`slice_with_offset`. -/
def DoubleMappedBuffer.sliceMutWithOffset (b : DoubleMappedBuffer) (offset : Nat) : Window :=
  ⟨b.buffer.addr + offset * b.elementSize, b.buffer.len⟩

/-- Debug-build semantics of `slice`: the `debug_assert` on alignment is an
active check, so the accessor yields a window only when it holds. -/
def DoubleMappedBuffer.sliceChecked (b : DoubleMappedBuffer) : Option Window :=
  if b.buffer.addr % b.elementAlign = 0 then some b.slice else none

/-- Debug-build semantics of `slice_mut`. -/
def DoubleMappedBuffer.sliceMutChecked (b : DoubleMappedBuffer) : Option Window :=
  if b.buffer.addr % b.elementAlign = 0 then some b.sliceMut else none

/-- Debug-build semantics of `slice_with_offset`: the alignment assertion and
the bound `offset <= self.buffer.len()` are active checks. -/
def DoubleMappedBuffer.sliceWithOffsetChecked (b : DoubleMappedBuffer) (offset : Nat) :
    Option Window :=
  if b.buffer.addr % b.elementAlign = 0 then
    if offset ≤ b.buffer.len then some (b.sliceWithOffset offset) else none
  else none

/-- Debug-build semantics of `slice_mut_with_offset`. -/
def DoubleMappedBuffer.sliceMutWithOffsetChecked (b : DoubleMappedBuffer) (offset : Nat) :
    Option Window :=
  if b.buffer.addr % b.elementAlign = 0 then
    if offset ≤ b.buffer.len then some (b.sliceMutWithOffset offset) else none
  else none

/-!
Byte-level model of the double mapping.  Physical storage of one half is a
function from physical byte index to byte value.  The mirroring invariant
(spec 3) says region-relative virtual byte `a` — for `a` in
`[0, 2 * byteLength)` — denotes physical byte `a % byteLength`.
-/

/-- Read the byte at region-relative virtual offset `a` through the double
mapping. -/
def readByte (mem : Nat → Nat) (byteLength a : Nat) : Nat :=
  mem (a % byteLength)

/-- Read `n` consecutive bytes starting at region-relative virtual offset
`a`. -/
def readBytes (mem : Nat → Nat) (byteLength a n : Nat) : List Nat :=
  (List.range n).map fun k => readByte mem byteLength (a + k)

/-- Write byte value `v` at region-relative virtual offset `a` through the
double mapping: the physical byte `a % byteLength` is updated. -/
def writeByte (mem : Nat → Nat) (byteLength a v : Nat) : Nat → Nat :=
  fun x => if x = a % byteLength then v else mem x

/-- Write the bytes of `v` consecutively starting at region-relative virtual
offset `a`, left to right. -/
def writeBytes (byteLength : Nat) : (Nat → Nat) → Nat → List Nat → (Nat → Nat)
  | mem, _, [] => mem
  | mem, a, v :: vs => writeBytes byteLength (writeByte mem byteLength a v) (a + 1) vs

/-- Element `i` of a window over the buffer, as the list of its
`elementSize` bytes: the window's start address relative to the region base
plus `i` element strides, read through the double mapping. -/
def DoubleMappedBuffer.readWindow (b : DoubleMappedBuffer) (mem : Nat → Nat)
    (w : Window) (i : Nat) : List Nat :=
  readBytes mem b.buffer.byteLength (w.startAddr - b.buffer.base + i * b.elementSize)
    b.elementSize

/-- Write element value `v` (a list of bytes) at element index `i` of a
window over the buffer. -/
def DoubleMappedBuffer.writeWindow (b : DoubleMappedBuffer) (mem : Nat → Nat)
    (w : Window) (i : Nat) (v : List Nat) : Nat → Nat :=
  writeBytes b.buffer.byteLength mem (w.startAddr - b.buffer.base + i * b.elementSize) v

/-!
Trace model of the accessor surface: each public method of the source takes
`&self` and assigns no field, so a call returns its result together with the
(unchanged) receiver state.
-/

/-- One call to the public accessor surface of the typed buffer. -/
inductive AccessorCall where
  | length
  | slice
  | sliceMut
  | sliceWithOffset (offset : Nat)
  | sliceMutWithOffset (offset : Nat)
deriving DecidableEq

/-- Result of one accessor call. -/
inductive CallResult where
  | num (n : Nat)
  | window (w : Window)
deriving DecidableEq

/-- Execute one accessor call: the output, and the receiver state after the
call (the source methods take `&self` and mutate nothing). -/
def DoubleMappedBuffer.call (b : DoubleMappedBuffer) :
    AccessorCall → CallResult × DoubleMappedBuffer
  | .length => (.num b.len, b)
  | .slice => (.window b.slice, b)
  | .sliceMut => (.window b.sliceMut, b)
  | .sliceWithOffset offset => (.window (b.sliceWithOffset offset), b)
  | .sliceMutWithOffset offset => (.window (b.sliceMutWithOffset offset), b)

/-- The buffer state after a sequence of accessor calls. -/
def DoubleMappedBuffer.runCalls (b : DoubleMappedBuffer) : List AccessorCall → DoubleMappedBuffer
  | [] => b
  | c :: cs => DoubleMappedBuffer.runCalls (b.call c).2 cs

/-- A concrete buffer over a model platform with page size 16: one half is 8
bytes, elements are 2 bytes, so 4 items. -/
def sampleBuffer : DoubleMappedBuffer := ⟨⟨16, 8, 4⟩, 2, 1⟩

/-- The buffer produced by `DoubleMappedBuffer.new 4096 1 3 1`: 3-byte
elements in a 4096-byte half leave a one-byte unreachable remainder
(1365 * 3 = 4095 < 4096). -/
def remBuffer : DoubleMappedBuffer := ⟨⟨4096, 4096, 1365⟩, 3, 1⟩

/-- The buffer of the spec's byte scenario: `new 4096 123 1 1` realizes one
page, 4096 one-byte items. -/
def byteBuffer : DoubleMappedBuffer := ⟨⟨4096, 4096, 4096⟩, 1, 1⟩

/-- The buffer of a four-byte-element request over a 4096-byte page:
`newWith (modelAlloc 4096) 4096 10 4 4` realizes one page, 1024 items. -/
def u32Buffer : DoubleMappedBuffer := ⟨⟨4096, 4096, 1024⟩, 4, 4⟩

/-! Helper lemmas. -/

theorem roundUpToPage_ge (ps m : Nat) (hps : 0 < ps) : m ≤ roundUpToPage ps m := by
  have h : m + ps - 1 < (m + ps - 1) / ps * ps + ps := Nat.lt_div_mul_add hps
  unfold roundUpToPage
  generalize (m + ps - 1) / ps * ps = R at h ⊢
  omega

theorem roundUpToPage_page_dvd (ps m : Nat) : ps ∣ roundUpToPage ps m :=
  Dvd.intro_left _ rfl

theorem modelAlloc_contract (ps : Nat) : AllocContract ps (modelAlloc ps) := by
  intro minBytes r h
  unfold modelAlloc at h
  by_cases h0 : minBytes = 0
  · simp [h0] at h
  · simp [h0] at h
    subst h
    exact ⟨rfl, Nat.mod_self ps⟩

theorem call_state_eq (b : DoubleMappedBuffer) (c : AccessorCall) : (b.call c).2 = b := by
  cases c <;> rfl

theorem runCalls_eq (calls : List AccessorCall) :
    ∀ b : DoubleMappedBuffer, b.runCalls calls = b := by
  induction calls with
  | nil => intro b; rfl
  | cons c cs ih =>
      intro b
      show ((b.call c).2).runCalls cs = b
      rw [call_state_eq]
      exact ih b

theorem writeBytes_ne (byteLength : Nat) (v : List Nat) :
    ∀ (mem : Nat → Nat) (a x : Nat),
      (∀ j, j < v.length → (a + j) % byteLength ≠ x) →
      writeBytes byteLength mem a v x = mem x := by
  induction v with
  | nil => intro mem a x _; rfl
  | cons u vs ih =>
      intro mem a x h
      show writeBytes byteLength (writeByte mem byteLength a u) (a + 1) vs x = _
      rw [ih _ _ _ ?_]
      · show (if x = a % byteLength then u else mem x) = mem x
        rw [if_neg]
        intro hx
        exact h 0 (Nat.succ_pos _) (by simpa using hx.symm)
      · intro j hj
        have := h (j + 1) (by simpa using Nat.succ_lt_succ hj)
        simpa [Nat.add_assoc, Nat.add_comm 1 j] using this

theorem writeBytes_get (byteLength : Nat) (v : List Nat) :
    ∀ (mem : Nat → Nat) (a k : Nat) (hk : k < v.length), v.length ≤ byteLength →
      writeBytes byteLength mem a v ((a + k) % byteLength) = v.get ⟨k, hk⟩ := by
  induction v with
  | nil => intro _ _ k hk _; exact absurd hk (Nat.not_lt_zero k)
  | cons u vs ih =>
      intro mem a k hk hv
      show writeBytes byteLength (writeByte mem byteLength a u) (a + 1) vs
        ((a + k) % byteLength) = _
      match k with
      | 0 =>
          have hBL : 0 < byteLength := Nat.lt_of_lt_of_le (Nat.succ_pos _) hv
          rw [writeBytes_ne byteLength vs _ _ _ ?_]
          · show (if (a + 0) % byteLength = a % byteLength then u else mem _) = u
            rw [if_pos (by simp)]
          · intro j hj heq
            have hmod : a % byteLength = (a + (1 + j)) % byteLength := by
              have e1 : a + (1 + j) = a + 1 + j := by omega
              rw [e1, heq]
              simp
            have hdvd : byteLength ∣ a + (1 + j) - a :=
              (Nat.modEq_iff_dvd' (Nat.le_add_right a (1 + j))).mp hmod
            have hdvd2 : byteLength ∣ 1 + j := by simpa using hdvd
            have h1 : 1 + j < byteLength := by
              have h2 : j < vs.length := hj
              simp only [List.length_cons] at hv
              omega
            have := Nat.le_of_dvd (by omega) hdvd2
            omega
      | k + 1 =>
          have harith : a + (k + 1) = (a + 1) + k := by omega
          rw [harith]
          exact ih _ _ k (Nat.lt_of_succ_lt_succ hk)
            (Nat.le_trans (Nat.le_succ _) hv)

theorem readBytes_congr (mem : Nat → Nat) (byteLength a1 a2 n : Nat)
    (h : a1 % byteLength = a2 % byteLength) :
    readBytes mem byteLength a1 n = readBytes mem byteLength a2 n := by
  unfold readBytes readByte
  have hk : ∀ k : Nat, (a1 + k) % byteLength = (a2 + k) % byteLength := by
    intro k
    rw [Nat.add_mod, h, ← Nat.add_mod]
  simp only [hk]

theorem readBytes_writeBytes (byteLength a : Nat) (v : List Nat) (mem : Nat → Nat)
    (hle : v.length ≤ byteLength) :
    readBytes (writeBytes byteLength mem a v) byteLength a v.length = v := by
  apply List.ext_get
  · simp [readBytes]
  · intro n h1 h2
    have hn : n < v.length := by simpa [readBytes] using h1
    have : (readBytes (writeBytes byteLength mem a v) byteLength a v.length).get ⟨n, h1⟩ =
        writeBytes byteLength mem a v ((a + n) % byteLength) := by
      simp [readBytes, readByte]
    rw [this, writeBytes_get byteLength v mem a n hn hle]

theorem mod_window (len esz byteLength j k : Nat) (hBL : len * esz = byteLength) :
    (j * esz + k) % byteLength = (j % len * esz + k) % byteLength := by
  have h1 : j * esz + k = byteLength * (j / len) + (j % len * esz + k) := by
    conv_lhs => rw [← Nat.div_add_mod j len]
    rw [← hBL]; ring
  rw [h1, Nat.mul_add_mod]

theorem newWith_ok_inv (alloc : Nat → Except DoubleMappedBufferError AllocResult)
    (ps minItems elementSize elementAlign : Nat) (b : DoubleMappedBuffer)
    (hok : DoubleMappedBuffer.newWith alloc ps minItems elementSize elementAlign = .ok b) :
    minItems * elementSize ≤ USIZE_MAX ∧ elementAlign ≤ ps ∧
    ∃ r, alloc (minItems * elementSize) = .ok r ∧
      b = ⟨⟨r.base, r.byteLength, r.byteLength / elementSize⟩, elementSize, elementAlign⟩ := by
  unfold DoubleMappedBuffer.newWith DoubleMappedBufferImpl.newWith at hok
  by_cases h1 : USIZE_MAX < minItems * elementSize
  · simp [h1] at hok
  · by_cases h2 : ps < elementAlign
    · simp [h1, h2] at hok
    · cases halloc : alloc (minItems * elementSize) with
      | error e => simp [h1, h2, halloc] at hok
      | ok r =>
          simp only [h1, h2, halloc, if_false, if_neg] at hok
          refine ⟨Nat.not_lt.mp h1, Nat.not_lt.mp h2, r, rfl, ?_⟩
          simp [h1, h2] at hok
          exact hok.symm

theorem modelAlloc_ok_inv (ps minBytes : Nat) (r : AllocResult)
    (h : modelAlloc ps minBytes = .ok r) :
    minBytes ≠ 0 ∧ r = ⟨ps, roundUpToPage ps minBytes⟩ := by
  unfold modelAlloc at h
  by_cases h0 : minBytes = 0
  · simp [h0] at h
  · simp [h0] at h
    exact ⟨h0, h.symm⟩

/-- C9: for every buffer, `slice()`, `slice_mut()`, `slice_with_offset(0)`
and `slice_mut_with_offset(0)` return windows with the identical start
address — the buffer's base address — and the identical element count
`len()`; the offset-0 accessors coincide with the plain ones and the read
and read/write views describe the same storage. -/
theorem offset_zero_accessors_coincide (b : DoubleMappedBuffer) :
    b.sliceWithOffset 0 = b.slice ∧
    b.sliceMutWithOffset 0 = b.sliceMut ∧
    b.sliceMut = b.slice ∧
    b.slice.startAddr = b.buffer.base ∧
    b.slice.numElems = b.len := by
  refine ⟨?_, ?_, rfl, rfl, rfl⟩ <;>
    simp [DoubleMappedBuffer.sliceWithOffset, DoubleMappedBuffer.sliceMutWithOffset,
      DoubleMappedBuffer.slice, DoubleMappedBuffer.sliceMut]

/-- C10: in release builds the offset accessors perform no bounds check: for
any offset, including offsets above `len()`, they return a window of
exactly `len()` elements at `base + offset * element_size`, with no error
or panic path; the bound `offset <= len()` (together with the alignment
assertion) is enforced only by the debug-build variants. -/
theorem offset_bound_debug_only (b : DoubleMappedBuffer) (offset : Nat) :
    b.sliceWithOffset offset = ⟨b.buffer.addr + offset * b.elementSize, b.len⟩ ∧
    b.sliceMutWithOffset offset = ⟨b.buffer.addr + offset * b.elementSize, b.len⟩ ∧
    (b.sliceWithOffsetChecked offset = some (b.sliceWithOffset offset) ↔
      b.buffer.addr % b.elementAlign = 0 ∧ offset ≤ b.len) ∧
    (b.sliceMutWithOffsetChecked offset = some (b.sliceMutWithOffset offset) ↔
      b.buffer.addr % b.elementAlign = 0 ∧ offset ≤ b.len) := by
  refine ⟨rfl, rfl, ?_, ?_⟩ <;>
  · simp only [DoubleMappedBuffer.sliceWithOffsetChecked,
      DoubleMappedBuffer.sliceMutWithOffsetChecked]
    by_cases h1 : b.buffer.addr % b.elementAlign = 0 <;>
      by_cases h2 : offset ≤ b.buffer.len <;>
        simp [h1, h2, DoubleMappedBuffer.len]

/-- C5: whenever `min_items * element_size` overflows the address width,
construction fails with `SizeOverflow` (and, being a total function of its
arguments, neither crashes nor panics), for any platform allocator. -/
theorem new_size_overflow (alloc : Nat → Except DoubleMappedBufferError AllocResult)
    (ps minItems elementSize elementAlign : Nat)
    (h : USIZE_MAX < minItems * elementSize) :
    DoubleMappedBuffer.newWith alloc ps minItems elementSize elementAlign =
      .error .sizeOverflow ∧
    DoubleMappedBufferImpl.newWith alloc ps minItems elementSize elementAlign =
      .error .sizeOverflow := by
  have h2 : DoubleMappedBufferImpl.newWith alloc ps minItems elementSize elementAlign =
      .error .sizeOverflow := by
    simp [DoubleMappedBufferImpl.newWith, h]
  refine ⟨?_, h2⟩
  unfold DoubleMappedBuffer.newWith
  rw [h2]

/-- C5 witness: a concrete overflowing request (2^63 items of 4 bytes on a
64-bit address width) fails with `SizeOverflow`. -/
theorem new_size_overflow_witness :
    DoubleMappedBuffer.newWith (modelAlloc 4096) 4096 (2 ^ 63) 4 4 =
      .error .sizeOverflow ∧
    DoubleMappedBufferImpl.newWith (modelAlloc 4096) 4096 (2 ^ 63) 4 4 =
      .error .sizeOverflow :=
  new_size_overflow (modelAlloc 4096) 4096 (2 ^ 63) 4 4 (by decide)

/-- C6: construction is all-or-nothing.  For any platform allocator, once
the size and alignment checks pass, a platform failure is returned exactly
as the platform's error value and no buffer is produced; and a typed buffer
is produced if and only if the allocation succeeded, in which case the
buffer is fully built from the allocation result. -/
theorem construction_all_or_nothing
    (alloc : Nat → Except DoubleMappedBufferError AllocResult)
    (ps minItems elementSize elementAlign : Nat)
    (hov : minItems * elementSize ≤ USIZE_MAX)
    (hal : elementAlign ≤ ps) :
    (∀ e, alloc (minItems * elementSize) = .error e →
      DoubleMappedBuffer.newWith alloc ps minItems elementSize elementAlign = .error e) ∧
    (∀ b, DoubleMappedBuffer.newWith alloc ps minItems elementSize elementAlign = .ok b ↔
      ∃ r, alloc (minItems * elementSize) = .ok r ∧
        b = ⟨⟨r.base, r.byteLength, r.byteLength / elementSize⟩, elementSize, elementAlign⟩) := by
  have h1 : ¬ USIZE_MAX < minItems * elementSize := Nat.not_lt.mpr hov
  have h2 : ¬ ps < elementAlign := Nat.not_lt.mpr hal
  have himpl : DoubleMappedBufferImpl.newWith alloc ps minItems elementSize elementAlign =
      match alloc (minItems * elementSize) with
      | .error e => .error e
      | .ok r => .ok ⟨r.base, r.byteLength, r.byteLength / elementSize⟩ := by
    simp [DoubleMappedBufferImpl.newWith, h1, h2]
  constructor
  · intro e he
    unfold DoubleMappedBuffer.newWith
    rw [himpl, he]
  · intro b
    unfold DoubleMappedBuffer.newWith
    rw [himpl]
    cases halloc : alloc (minItems * elementSize) with
    | error e => simp [halloc]
    | ok r =>
        simp only [halloc]
        constructor
        · intro hb
          cases hb
          exact ⟨r, rfl, rfl⟩
        · rintro ⟨r2, hr2, hb⟩
          cases hr2
          rw [hb]

/-- C6 witness: with a platform that reports `OutOfMemory`, a well-formed
request is answered by exactly that error. -/
theorem construction_all_or_nothing_witness :
    DoubleMappedBuffer.newWith (fun _ => .error .outOfMemory) 4096 1 1 1 =
      .error .outOfMemory :=
  (construction_all_or_nothing (fun _ => .error .outOfMemory) 4096 1 1 1
    (by decide) (by decide)).1 .outOfMemory rfl

/-- C2: for every `min_items > 0` and every element layout, if construction
over the model platform succeeds then the resulting buffer satisfies
`len() >= min_items` and `len() > 0`. -/
theorem new_len_ge_min_items (ps minItems elementSize elementAlign : Nat)
    (b : DoubleMappedBuffer)
    (hps : 0 < ps) (hmin : 0 < minItems)
    (hok : DoubleMappedBuffer.new ps minItems elementSize elementAlign = .ok b) :
    minItems ≤ b.len ∧ 0 < b.len := by
  obtain ⟨hov, hal, r, hr, rfl⟩ :=
    newWith_ok_inv (modelAlloc ps) ps minItems elementSize elementAlign b hok
  obtain ⟨h0, rfl⟩ := modelAlloc_ok_inv ps (minItems * elementSize) r hr
  have hesz : 0 < elementSize := by
    rcases Nat.eq_zero_or_pos elementSize with h | h
    · exact absurd (by simp [h]) h0
    · exact h
  have hge : minItems * elementSize ≤ roundUpToPage ps (minItems * elementSize) :=
    roundUpToPage_ge ps _ hps
  have hdivle : minItems ≤ roundUpToPage ps (minItems * elementSize) / elementSize := by
    have h4 : minItems * elementSize / elementSize ≤
        roundUpToPage ps (minItems * elementSize) / elementSize :=
      Nat.div_le_div_right hge
    rwa [Nat.mul_div_cancel _ hesz] at h4
  exact ⟨hdivle, Nat.lt_of_lt_of_le hmin hdivle⟩

/-- C2 witness: the spec's byte scenario `new 4096 123 1 1` yields 4096
items, at least 123 and positive. -/
theorem new_len_ge_min_items_witness : 123 ≤ byteBuffer.len ∧ 0 < byteBuffer.len :=
  new_len_ge_min_items 4096 123 1 1 byteBuffer (by decide) (by decide) rfl

/-- C3: for every buffer carrying the construction invariant
`len_items = byte_length / element_size` and every offset with
`0 <= offset <= len()`, `slice_with_offset(offset)` is a window of exactly
`len()` elements starting at `base + offset * element_size`, the
debug-build assertions never fire, the read/write counterpart is the
identical window, and the whole window — including at the boundary
`offset == len()` — stays inside the double mapping of `2 * byte_length`
bytes. -/
theorem slice_with_offset_window (b : DoubleMappedBuffer) (offset : Nat)
    (hlen : b.buffer.lenItems = b.buffer.byteLength / b.elementSize)
    (hoff : offset ≤ b.len)
    (halign : b.buffer.addr % b.elementAlign = 0) :
    (b.sliceWithOffset offset).numElems = b.len ∧
    (b.sliceWithOffset offset).startAddr = b.buffer.base + offset * b.elementSize ∧
    b.sliceWithOffsetChecked offset = some (b.sliceWithOffset offset) ∧
    b.sliceMutWithOffsetChecked offset = some (b.sliceMutWithOffset offset) ∧
    b.sliceMutWithOffset offset = b.sliceWithOffset offset ∧
    (offset + b.len) * b.elementSize ≤ 2 * b.buffer.byteLength := by
  have hoff2 : offset ≤ b.buffer.len := hoff
  refine ⟨rfl, rfl, ?_, ?_, rfl, ?_⟩
  · simp [DoubleMappedBuffer.sliceWithOffsetChecked, halign, hoff2]
  · simp [DoubleMappedBuffer.sliceMutWithOffsetChecked, halign, hoff2]
  · have h1 : b.len * b.elementSize ≤ b.buffer.byteLength := by
      show b.buffer.lenItems * b.elementSize ≤ b.buffer.byteLength
      rw [hlen]
      exact Nat.div_mul_le_self _ _
    calc (offset + b.len) * b.elementSize
        ≤ (b.len + b.len) * b.elementSize :=
          Nat.mul_le_mul_right _ (Nat.add_le_add_right hoff _)
      _ = 2 * (b.len * b.elementSize) := by ring
      _ ≤ 2 * b.buffer.byteLength := Nat.mul_le_mul_left _ h1

/-- C3 witness: the byte buffer at the boundary offset `len() = 4096`. -/
theorem slice_with_offset_window_witness :
    (byteBuffer.sliceWithOffset 4096).numElems = byteBuffer.len ∧
    (byteBuffer.sliceWithOffset 4096).startAddr =
      byteBuffer.buffer.base + 4096 * byteBuffer.elementSize ∧
    byteBuffer.sliceWithOffsetChecked 4096 = some (byteBuffer.sliceWithOffset 4096) ∧
    byteBuffer.sliceMutWithOffsetChecked 4096 = some (byteBuffer.sliceMutWithOffset 4096) ∧
    byteBuffer.sliceMutWithOffset 4096 = byteBuffer.sliceWithOffset 4096 ∧
    (4096 + byteBuffer.len) * byteBuffer.elementSize ≤ 2 * byteBuffer.buffer.byteLength :=
  slice_with_offset_window byteBuffer 4096 (by decide) (by decide) (by decide)

/-- C7: for a buffer built over any allocator satisfying the platform
contract, with the element alignment and the page size powers of two and
the alignment at most the page size, the base address is page-aligned and
hence element-aligned, so the alignment assertion of every accessor —
`slice`, `slice_mut` and both offset accessors — holds in debug builds. -/
theorem base_alignment (alloc : Nat → Except DoubleMappedBufferError AllocResult)
    (ps minItems elementSize elementAlign a k offset : Nat)
    (b : DoubleMappedBuffer)
    (hc : AllocContract ps alloc)
    (hok : DoubleMappedBuffer.newWith alloc ps minItems elementSize elementAlign = .ok b)
    (hal : elementAlign = 2 ^ a) (hpsk : ps = 2 ^ k)
    (hle : elementAlign ≤ ps)
    (hoff : offset ≤ b.len) :
    b.buffer.addr % ps = 0 ∧
    b.buffer.addr % b.elementAlign = 0 ∧
    b.sliceChecked = some b.slice ∧
    b.sliceMutChecked = some b.sliceMut ∧
    b.sliceWithOffsetChecked offset = some (b.sliceWithOffset offset) ∧
    b.sliceMutWithOffsetChecked offset = some (b.sliceMutWithOffset offset) := by
  obtain ⟨hov, halps, r, hr, rfl⟩ :=
    newWith_ok_inv alloc ps minItems elementSize elementAlign b hok
  obtain ⟨hbl, hbase⟩ := hc _ _ hr
  have hdvdps : elementAlign ∣ ps := by
    rw [hal, hpsk]
    refine pow_dvd_pow 2 ?_
    have h2 : (2 : Nat) ^ a ≤ 2 ^ k := by rw [← hal, ← hpsk]; exact hle
    exact (pow_le_pow_iff_right₀ (by norm_num)).mp h2
  have hbasedvd : elementAlign ∣ r.base :=
    hdvdps.trans (Nat.dvd_of_mod_eq_zero hbase)
  have halignbase : r.base % elementAlign = 0 := Nat.mod_eq_zero_of_dvd hbasedvd
  have hoff2 : offset ≤ r.byteLength / elementSize := hoff
  refine ⟨hbase, halignbase, ?_, ?_, ?_, ?_⟩
  · simp [DoubleMappedBuffer.sliceChecked, DoubleMappedBufferImpl.addr, halignbase]
  · simp [DoubleMappedBuffer.sliceMutChecked, DoubleMappedBufferImpl.addr, halignbase]
  · simp [DoubleMappedBuffer.sliceWithOffsetChecked, DoubleMappedBufferImpl.addr,
      DoubleMappedBufferImpl.len, halignbase, hoff2]
  · simp [DoubleMappedBuffer.sliceMutWithOffsetChecked, DoubleMappedBufferImpl.addr,
      DoubleMappedBufferImpl.len, halignbase, hoff2]

/-- C7 witness: a four-byte-aligned element type on a 4096-byte page. -/
theorem base_alignment_witness :
    u32Buffer.buffer.addr % 4096 = 0 ∧
    u32Buffer.buffer.addr % u32Buffer.elementAlign = 0 ∧
    u32Buffer.sliceChecked = some u32Buffer.slice ∧
    u32Buffer.sliceMutChecked = some u32Buffer.sliceMut ∧
    u32Buffer.sliceWithOffsetChecked 1024 = some (u32Buffer.sliceWithOffset 1024) ∧
    u32Buffer.sliceMutWithOffsetChecked 1024 = some (u32Buffer.sliceMutWithOffset 1024) :=
  base_alignment (modelAlloc 4096) 4096 10 4 4 2 12 1024 u32Buffer
    (modelAlloc_contract 4096) rfl (by decide) (by decide) (by decide) (by decide)

/-- C8: `length()` returns `len_items = byte_length / element_size` (integer
division), and the accessor surface is pure: any sequence of accessor calls
leaves the buffer state unchanged, so `length()` yields the same value on
every call; moreover `slice()` touches only byte offsets below
`len() * element_size <= byte_length`, leaving the tail remainder bytes of
the half unreachable through it. -/
theorem len_pure (ps minItems elementSize elementAlign i k : Nat)
    (b : DoubleMappedBuffer) (calls : List AccessorCall)
    (hok : DoubleMappedBuffer.new ps minItems elementSize elementAlign = .ok b)
    (hi : i < b.len) (hk : k < b.elementSize) :
    b.len = b.buffer.byteLength / b.elementSize ∧
    b.runCalls calls = b ∧
    (b.runCalls calls).len = b.len ∧
    b.len * b.elementSize ≤ b.buffer.byteLength ∧
    i * b.elementSize + k < b.len * b.elementSize := by
  obtain ⟨hov, hal, r, hr, rfl⟩ :=
    newWith_ok_inv (modelAlloc ps) ps minItems elementSize elementAlign b hok
  refine ⟨rfl, runCalls_eq calls _, by rw [runCalls_eq], ?_, ?_⟩
  · show r.byteLength / elementSize * elementSize ≤ r.byteLength
    exact Nat.div_mul_le_self _ _
  · calc i * elementSize + k
        < i * elementSize + elementSize := Nat.add_lt_add_left hk _
      _ = (i + 1) * elementSize := by ring
      _ ≤ r.byteLength / elementSize * elementSize :=
          Nat.mul_le_mul_right _ (Nat.succ_le_of_lt hi)

/-- C8 witness: the byte buffer under a concrete call sequence. -/
theorem len_pure_witness :
    byteBuffer.len = byteBuffer.buffer.byteLength / byteBuffer.elementSize ∧
    byteBuffer.runCalls
      [.length, .slice, .sliceWithOffset 7, .sliceMut, .sliceMutWithOffset 4096] =
      byteBuffer ∧
    (byteBuffer.runCalls
      [.length, .slice, .sliceWithOffset 7, .sliceMut, .sliceMutWithOffset 4096]).len =
      byteBuffer.len ∧
    byteBuffer.len * byteBuffer.elementSize ≤ byteBuffer.buffer.byteLength ∧
    0 * byteBuffer.elementSize + 0 < byteBuffer.len * byteBuffer.elementSize :=
  len_pure 4096 123 1 1 0 0 byteBuffer
    [.length, .slice, .sliceWithOffset 7, .sliceMut, .sliceMutWithOffset 4096]
    rfl (by decide) (by decide)

/-- C1 (amended): for every buffer whose element size divides the realized
byte length of one half (so `len_items * element_size = byte_length`, which
holds in particular whenever the element size divides the page size), every
offset in `[0, len_items]` and every `i < len_items`, element `i` of
`view_with_offset(offset)` reads the same bytes as element
`(offset + i) mod len_items` of `view()`; and the boundary round trips
hold: a value written at index 0 through `view_mut_with_offset(length())`
is read back at index 0 of `view()`, and symmetrically. -/
theorem view_with_offset_mirroring (b : DoubleMappedBuffer) (mem : Nat → Nat)
    (offset i : Nat) (v : List Nat)
    (hlen : b.buffer.lenItems = b.buffer.byteLength / b.elementSize)
    (hdvd : b.elementSize ∣ b.buffer.byteLength)
    (hpos : 0 < b.len)
    (hoff : offset ≤ b.len) (hi : i < b.len)
    (hv : v.length = b.elementSize) :
    b.readWindow mem (b.sliceWithOffset offset) i =
      b.readWindow mem b.slice ((offset + i) % b.len) ∧
    b.readWindow (b.writeWindow mem (b.sliceMutWithOffset b.len) 0 v) b.slice 0 = v ∧
    b.readWindow (b.writeWindow mem b.sliceMut 0 v) (b.sliceWithOffset b.len) 0 = v := by
  have hBL : b.buffer.lenItems * b.elementSize = b.buffer.byteLength := by
    rw [hlen]
    exact Nat.div_mul_cancel hdvd
  have heszBL : b.elementSize ≤ b.buffer.byteLength := by
    rw [← hBL]
    exact Nat.le_mul_of_pos_left _ hpos
  have hvBL : v.length ≤ b.buffer.byteLength := by rw [hv]; exact heszBL
  refine ⟨?_, ?_, ?_⟩
  · simp only [DoubleMappedBuffer.readWindow, DoubleMappedBuffer.sliceWithOffset,
      DoubleMappedBuffer.slice, DoubleMappedBufferImpl.addr, DoubleMappedBuffer.len,
      DoubleMappedBufferImpl.len, Nat.add_sub_cancel_left, Nat.sub_self, Nat.zero_add]
    have e1 : offset * b.elementSize + i * b.elementSize =
        (offset + i) * b.elementSize := by ring
    rw [e1]
    apply readBytes_congr
    have h2 := mod_window b.buffer.lenItems b.elementSize b.buffer.byteLength
      (offset + i) 0 hBL
    simpa using h2
  · simp only [DoubleMappedBuffer.readWindow, DoubleMappedBuffer.writeWindow,
      DoubleMappedBuffer.sliceMutWithOffset, DoubleMappedBuffer.slice,
      DoubleMappedBufferImpl.addr, DoubleMappedBuffer.len, DoubleMappedBufferImpl.len,
      Nat.add_sub_cancel_left, Nat.sub_self, Nat.zero_add, Nat.zero_mul, Nat.add_zero]
    rw [hBL]
    have h0 : (0 : Nat) % b.buffer.byteLength = b.buffer.byteLength % b.buffer.byteLength := by
      simp
    rw [readBytes_congr _ _ 0 b.buffer.byteLength _ h0, ← hv]
    exact readBytes_writeBytes _ _ _ _ hvBL
  · simp only [DoubleMappedBuffer.readWindow, DoubleMappedBuffer.writeWindow,
      DoubleMappedBuffer.sliceMut, DoubleMappedBuffer.sliceWithOffset,
      DoubleMappedBufferImpl.addr, DoubleMappedBuffer.len, DoubleMappedBufferImpl.len,
      Nat.add_sub_cancel_left, Nat.sub_self, Nat.zero_add, Nat.zero_mul, Nat.add_zero]
    rw [hBL]
    have h0 : b.buffer.byteLength % b.buffer.byteLength = (0 : Nat) % b.buffer.byteLength := by
      simp
    rw [readBytes_congr _ _ b.buffer.byteLength 0 _ h0, ← hv]
    exact readBytes_writeBytes _ _ _ _ hvBL

/-- C1 witness: a buffer of 4 two-byte items in an 8-byte half, read at
offset 3 index 2, and the boundary write/read round trips with value
[9, 7]. -/
theorem view_with_offset_mirroring_witness :
    (sampleBuffer.readWindow (fun x => x) (sampleBuffer.sliceWithOffset 3) 2 =
      sampleBuffer.readWindow (fun x => x) sampleBuffer.slice ((3 + 2) % sampleBuffer.len)) ∧
    sampleBuffer.readWindow
        (sampleBuffer.writeWindow (fun x => x)
          (sampleBuffer.sliceMutWithOffset sampleBuffer.len) 0 [9, 7])
        sampleBuffer.slice 0 = [9, 7] ∧
    sampleBuffer.readWindow
        (sampleBuffer.writeWindow (fun x => x) sampleBuffer.sliceMut 0 [9, 7])
        (sampleBuffer.sliceWithOffset sampleBuffer.len) 0 = [9, 7] :=
  view_with_offset_mirroring sampleBuffer (fun x => x) 3 2 [9, 7]
    (by decide) (by decide) (by decide) (by decide) (by decide) (by decide)

/-- C1 counterexample: with 3-byte elements in a 4096-byte half the buffer
constructs successfully (1365 items, one remainder byte), yet at the
boundary offset `len_items` index 0 the offset view reads physical bytes
4095, 0, 1 while `view()[(len + 0) mod len] = view()[0]` reads bytes
0, 1, 2 — the claimed identity and the boundary round trip both fail. -/
theorem view_with_offset_mirroring_counterexample :
    DoubleMappedBuffer.new 4096 1 3 1 = .ok remBuffer ∧
    remBuffer.readWindow (fun x => x % 256) (remBuffer.sliceWithOffset 1365) 0 ≠
      remBuffer.readWindow (fun x => x % 256) remBuffer.slice ((1365 + 0) % remBuffer.len) ∧
    remBuffer.readWindow
        (remBuffer.writeWindow (fun x => x % 256)
          (remBuffer.sliceMutWithOffset remBuffer.len) 0 [5, 6, 7])
        remBuffer.slice 0 ≠ [5, 6, 7] :=
  ⟨rfl, by decide, by decide⟩

/-- C4 (amended): for every positive page size, every `n > 0` and every
element layout with positive size dividing the page size, alignment at most
the page size, and `n * element_size` representable in the address width,
construction over the model platform succeeds and the resulting length
satisfies: `length() * element_size` is a nonzero multiple of the page size
and `length() >= n`. -/
theorem create_succeeds_page_multiple (ps n esz al : Nat)
    (hps : 0 < ps) (hn : 0 < n) (hesz : 0 < esz)
    (hdvd : esz ∣ ps) (hal : al ≤ ps) (hov : n * esz ≤ USIZE_MAX) :
    ∃ b, DoubleMappedBuffer.new ps n esz al = .ok b ∧
      b.len * esz % ps = 0 ∧ 0 < b.len * esz ∧ n ≤ b.len := by
  have hminb : n * esz ≠ 0 :=
    Nat.mul_ne_zero (Nat.pos_iff_ne_zero.mp hn) (Nat.pos_iff_ne_zero.mp hesz)
  have h1 : ¬ USIZE_MAX < n * esz := Nat.not_lt.mpr hov
  have h2 : ¬ ps < al := Nat.not_lt.mpr hal
  have hRdvd : esz ∣ roundUpToPage ps (n * esz) :=
    hdvd.trans (roundUpToPage_page_dvd ps _)
  have hRmul : roundUpToPage ps (n * esz) / esz * esz = roundUpToPage ps (n * esz) :=
    Nat.div_mul_cancel hRdvd
  have hge : n * esz ≤ roundUpToPage ps (n * esz) := roundUpToPage_ge ps _ hps
  refine ⟨⟨⟨ps, roundUpToPage ps (n * esz),
    roundUpToPage ps (n * esz) / esz⟩, esz, al⟩, ?_, ?_, ?_, ?_⟩
  · unfold DoubleMappedBuffer.new DoubleMappedBuffer.newWith
      DoubleMappedBufferImpl.newWith modelAlloc
    simp [h1, h2, hminb]
  · show roundUpToPage ps (n * esz) / esz * esz % ps = 0
    rw [hRmul]
    exact Nat.mod_eq_zero_of_dvd (roundUpToPage_page_dvd ps _)
  · show 0 < roundUpToPage ps (n * esz) / esz * esz
    rw [hRmul]
    exact Nat.lt_of_lt_of_le (Nat.mul_pos hn hesz) hge
  · show n ≤ roundUpToPage ps (n * esz) / esz
    have h4 : n * esz / esz ≤ roundUpToPage ps (n * esz) / esz :=
      Nat.div_le_div_right hge
    rwa [Nat.mul_div_cancel _ hesz] at h4

/-- C4 witness: 123 four-byte items on a 4096-byte page. -/
theorem create_succeeds_page_multiple_witness :
    ∃ b, DoubleMappedBuffer.new 4096 123 4 4 = .ok b ∧
      b.len * 4 % 4096 = 0 ∧ 0 < b.len * 4 ∧ 123 ≤ b.len :=
  create_succeeds_page_multiple 4096 123 4 4 (by decide) (by decide) (by decide)
    (by decide) (by decide) (by decide)

/-- C4 counterexample: a request whose byte count overflows the address
width fails with `SizeOverflow` instead of succeeding; and with 3-byte
elements construction succeeds but `length() * element_size = 4095` is not
a multiple of the 4096-byte page. -/
theorem create_succeeds_page_multiple_counterexample :
    DoubleMappedBuffer.new 4096 (2 ^ 62) 4 4 = .error .sizeOverflow ∧
    DoubleMappedBuffer.new 4096 1 3 1 = .ok remBuffer ∧
    remBuffer.len * 3 % 4096 ≠ 0 :=
  ⟨rfl, rfl, by decide⟩

end Vmcircbuffer
